import Mathlib

/-!
Verification of the qr library (qr.py, version 0.2.1): client-side wrappers
around a remote key-addressable list store (Redis), exposing a Deque, a FIFO
Queue, a LIFO Stack and a size-capped CappedCollection over a single remote
list per key.

The remote list bound to a handle's key is modelled as a `List String`
(Redis treats a nonexistent key as an empty list; head of the Lean list is
the left end of the Redis list).  The store primitives lpush, rpush, lpop,
rpop, lrange and ltrim are modelled with Redis semantics, including the
negative-index-from-end convention of lrange and ltrim.  Each wrapper method
is a pure function of the list state that also returns the diagnostic log
records it emits.
-/

/-! ### Store primitives (Redis list commands) -/

/-- Redis LPUSH: prepend an element at the left end of the list. -/
def lpush (e : String) (s : List String) : List String := e :: s

/-- Redis RPUSH: append an element at the right end of the list. -/
def rpush (e : String) (s : List String) : List String := s ++ [e]

/-- Redis LPOP: remove and return the leftmost element, or the empty
sentinel when the list is empty or the key absent. -/
def lpop (s : List String) : Option String × List String := (s.head?, s.tail)

/-- Redis RPOP: remove and return the rightmost element, or the empty
sentinel. -/
def rpop (s : List String) : Option String × List String := (s.getLast?, s.dropLast)

/-- Redis index normalization: a negative index counts from the end of a
list of length n (`-1` is the last element). -/
def normIdx (n : Nat) (i : Int) : Int := if i < 0 then (n : Int) + i else i

/-- The inclusive slice of a list selected by a Redis start/stop index pair,
after normalizing negative indexes and clamping to the list bounds; an
inverted range selects nothing.  LRANGE returns this slice and LTRIM keeps
exactly this slice. -/
def redisSlice (start stop : Int) (l : List String) : List String :=
  let n := l.length
  let a := max (normIdx n start) 0
  let b := min (normIdx n stop) ((n : Int) - 1)
  if b < a then [] else (l.drop a.toNat).take (b - a + 1).toNat

/-- Redis LRANGE: read the slice selected by start/stop. -/
def lrange (start stop : Int) (l : List String) : List String :=
  redisSlice start stop l

/-- Redis LTRIM: keep only the slice selected by start/stop. -/
def ltrim (start stop : Int) (l : List String) : List String :=
  redisSlice start stop l

/-! ### Client-library reply and Python truthiness

The redis client returns the lrange reply as a Python value which the
wrapper code may test for truthiness (`... or []` in Queue.elements).  We
model such a reply as an `Option (List String)`: `some l` is a list reply,
`none` is a falsy non-list absent-key sentinel form that a store client
might yield.  The actual client turns LRANGE into a list reply. -/

/-- The client-library reply of lrange on the current list state: the
actual redis client always replies with the list itself. -/
def clientLrange (start stop : Int) (s : List String) : Option (List String) :=
  some (lrange start stop s)

/-- Python `r or d` for a possibly-falsy list reply r: both the absent-key
sentinel and an empty list are falsy and yield the default d. -/
def pyOr (r : Option (List String)) (d : List String) : List String :=
  match r with
  | none => d
  | some l => if l.isEmpty then d else l

/-! ### JSON serialization collaborator

json.dumps applied to the values this library serializes (a list of
strings, or the falsy sentinel), modelled at the level of the JSON
document it produces. -/

/-- The fragment of JSON documents produced and consumed here. -/
inductive JsonVal where
  | null : JsonVal
  | str : String → JsonVal
  | arr : List JsonVal → JsonVal

/-- json.dumps on a Python list of strings: a JSON array of strings. -/
def jsonDumpsList (l : List String) : JsonVal :=
  JsonVal.arr (l.map JsonVal.str)

/-- json.dumps on a possibly-falsy lrange reply: the sentinel serializes to
JSON null, a list reply to a JSON array of strings. -/
def jsonDumps : Option (List String) → JsonVal
  | none => JsonVal.null
  | some l => jsonDumpsList l

/-- Decode a JSON value as one string. -/
def decodeStr : JsonVal → Option String
  | JsonVal.str s => some s
  | _ => none

/-- Decode a list of JSON values as strings, failing on any non-string. -/
def decodeStrList : List JsonVal → Option (List String)
  | [] => some []
  | j :: js =>
    match decodeStr j, decodeStrList js with
    | some s, some r => some (s :: r)
    | _, _ => none

/-- Decode a JSON value as an array of strings. -/
def decodeStringArray : JsonVal → Option (List String)
  | JsonVal.arr xs => decodeStrList xs
  | _ => none

/-! ### Logging collaborator -/

/-- One diagnostic record sent to the process-wide qr logger: the push
records read `Pushed ** element ** for key ** key **` and the pop records
read `Popped ** value ** from key ** key **` (the popped value may be the
empty sentinel). -/
inductive LogRecord where
  | pushed (element : String) (key : String)
  | popped (value : Option String) (key : String)
deriving DecidableEq

/-- Result of one push method: the new list state and the log records the
call emitted. -/
structure PushOut where
  state : List String
  log : List LogRecord
deriving DecidableEq

/-- Result of one pop method: the returned value (none is the empty
sentinel), the new list state and the emitted log records. -/
structure PopOut where
  value : Option String
  state : List String
  log : List LogRecord
deriving DecidableEq

/-! ### Deque (qr.py lines 42-86) -/

/-- Deque.pushback: lpush the element, log the push. -/
def Deque.pushback (key e : String) (s : List String) : PushOut :=
  { state := lpush e s, log := [LogRecord.pushed e key] }

/-- Deque.pushfront: rpush the element, log the push. -/
def Deque.pushfront (key e : String) (s : List String) : PushOut :=
  { state := rpush e s, log := [LogRecord.pushed e key] }

/-- Deque.popfront: rpop, log the pop (sentinel included), return it. -/
def Deque.popfront (key : String) (s : List String) : PopOut :=
  let p := rpop s
  { value := p.1, state := p.2, log := [LogRecord.popped p.1 key] }

/-- Deque.popback: lpop, log the pop, return it. -/
def Deque.popback (key : String) (s : List String) : PopOut :=
  let p := lpop s
  { value := p.1, state := p.2, log := [LogRecord.popped p.1 key] }

/-- What Deque.elements does with the lrange reply: returns it verbatim. -/
def Deque.elementsOfReply (r : Option (List String)) : Option (List String) := r

/-- Deque.elements: lrange(key, 0, -1), returned verbatim. -/
def Deque.elements (s : List String) : Option (List String) :=
  Deque.elementsOfReply (clientLrange 0 (-1) s)

/-- Deque.elements_as_json: json.dumps of the verbatim lrange reply. -/
def Deque.elements_as_json (s : List String) : JsonVal :=
  jsonDumps (Deque.elementsOfReply (clientLrange 0 (-1) s))

/-! ### Queue (qr.py lines 88-119) -/

/-- Queue.push: lpush the element, log the push. -/
def Queue.push (key e : String) (s : List String) : PushOut :=
  { state := lpush e s, log := [LogRecord.pushed e key] }

/-- Queue.pop: rpop, log the pop, return it. -/
def Queue.pop (key : String) (s : List String) : PopOut :=
  let p := rpop s
  { value := p.1, state := p.2, log := [LogRecord.popped p.1 key] }

/-- What Queue.elements does with the lrange reply: `reply or []`, the
explicit normalization of any falsy reply to an empty list. -/
def Queue.elementsOfReply (r : Option (List String)) : List String :=
  pyOr r []

/-- Queue.elements: lrange(key, 0, -1) normalized by `or []`. -/
def Queue.elements (s : List String) : List String :=
  Queue.elementsOfReply (clientLrange 0 (-1) s)

/-- Queue.elements_as_json: json.dumps of the normalized element list. -/
def Queue.elements_as_json (s : List String) : JsonVal :=
  jsonDumpsList (Queue.elementsOfReply (clientLrange 0 (-1) s))

/-! ### CappedCollection (qr.py lines 121-154) -/

/-- CappedCollection.push: one pipeline (multi-exec batch) running
lpush(key, element) then ltrim(key, 0, size-1); the index arithmetic
`size-1` is integer subtraction, so size 0 yields ltrim(key, 0, -1).
No log record is emitted by this method. -/
def CappedCollection.push (key : String) (size : Nat) (e : String) (s : List String) :
    PushOut :=
  { state := ltrim 0 ((size : Int) - 1) (lpush e s), log := [] }

/-- CappedCollection.pop: rpop, log the pop, return it. -/
def CappedCollection.pop (key : String) (s : List String) : PopOut :=
  let p := rpop s
  { value := p.1, state := p.2, log := [LogRecord.popped p.1 key] }

/-- What CappedCollection.elements does with the lrange reply: verbatim. -/
def CappedCollection.elementsOfReply (r : Option (List String)) :
    Option (List String) := r

/-- CappedCollection.elements: lrange(key, 0, -1), returned verbatim. -/
def CappedCollection.elements (s : List String) : Option (List String) :=
  CappedCollection.elementsOfReply (clientLrange 0 (-1) s)

/-- CappedCollection.elements_as_json: json.dumps of the verbatim reply. -/
def CappedCollection.elements_as_json (s : List String) : JsonVal :=
  jsonDumps (CappedCollection.elementsOfReply (clientLrange 0 (-1) s))

/-! ### Stack (qr.py lines 156-187) -/

/-- Stack.push: lpush the element, log the push. -/
def Stack.push (key e : String) (s : List String) : PushOut :=
  { state := lpush e s, log := [LogRecord.pushed e key] }

/-- Stack.pop: lpop, log the pop, return it. -/
def Stack.pop (key : String) (s : List String) : PopOut :=
  let p := lpop s
  { value := p.1, state := p.2, log := [LogRecord.popped p.1 key] }

/-- What Stack.elements does with the lrange reply: returns it verbatim. -/
def Stack.elementsOfReply (r : Option (List String)) : Option (List String) := r

/-- Stack.elements: lrange(key, 0, -1), returned verbatim. -/
def Stack.elements (s : List String) : Option (List String) :=
  Stack.elementsOfReply (clientLrange 0 (-1) s)

/-- Stack.elements_as_json: json.dumps of the verbatim lrange reply. -/
def Stack.elements_as_json (s : List String) : JsonVal :=
  jsonDumps (Stack.elementsOfReply (clientLrange 0 (-1) s))

/-! ### Iterated operations used by the claims -/

/-- Push a sequence of elements one at a time through Queue.push. -/
def Queue.pushAll (key : String) (es : List String) (s : List String) : List String :=
  es.foldl (fun st e => (Queue.push key e st).state) s

/-- Pop n times through Queue.pop, collecting the returned values in
order. -/
def Queue.popN (key : String) : Nat → List String → List (Option String) × List String
  | 0, s => ([], s)
  | Nat.succ n, s =>
    let p := Queue.pop key s
    let r := Queue.popN key n p.state
    (p.value :: r.1, r.2)

/-- Push a sequence of elements one at a time through Stack.push. -/
def Stack.pushAll (key : String) (es : List String) (s : List String) : List String :=
  es.foldl (fun st e => (Stack.push key e st).state) s

/-- Pop n times through Stack.pop, collecting the returned values in
order. -/
def Stack.popN (key : String) : Nat → List String → List (Option String) × List String
  | 0, s => ([], s)
  | Nat.succ n, s =>
    let p := Stack.pop key s
    let r := Stack.popN key n p.state
    (p.value :: r.1, r.2)

/-- Push a sequence of elements one at a time through
CappedCollection.push; each element is one atomic lpush-then-ltrim
batch. -/
def CappedCollection.pushAll (key : String) (size : Nat) (es : List String)
    (s : List String) : List String :=
  es.foldl (fun st e => (CappedCollection.push key size e st).state) s

/-! ### Concurrency model for CappedCollection.push

Each client holds its own pending sequence of elements to push; the store
serializes whole push batches (the pipeline is the unit of atomicity), so
an execution is an interleaving of the clients' sequences into one trace
of batches.  `MergeOf cs tr` says trace tr is such an interleaving of the
client sequences cs: each step runs the next pending batch of one
client. -/
inductive MergeOf : List (List String) → List String → Prop where
  | done {cs : List (List String)} (h : ∀ c ∈ cs, c = []) : MergeOf cs []
  | step {cs : List (List String)} {tr : List String} (i : Nat) (e : String)
      (rest : List String) (hget : cs[i]? = some (e :: rest))
      (htail : MergeOf (cs.set i rest) tr) : MergeOf cs (e :: tr)

/-! ### Basic facts about the store primitives -/

lemma normIdx_zero (n : Nat) : normIdx n 0 = 0 := by
  simp [normIdx]

lemma redisSlice_full (l : List String) : redisSlice 0 (-1) l = l := by
  simp only [redisSlice, normIdx_zero, normIdx]
  norm_num

lemma redisSlice_take {k : Nat} (hk : 0 < k) (l : List String) :
    redisSlice 0 ((k : Int) - 1) l = l.take k := by
  simp only [redisSlice, normIdx_zero, normIdx]
  norm_num
  rw [if_neg hk.ne']
  rcases eq_or_ne l [] with rfl | hl
  · simp
  · rw [if_neg (by push_neg; exact ⟨by omega, hl⟩)]
    have hmin : (((k : Int) - 1) ⊓ ((l.length : Int) - 1) + 1).toNat = min k l.length := by
      have : 1 ≤ l.length := List.length_pos.mpr hl
      omega
    rw [hmin, ← List.take_take, List.take_length]

lemma take_cons_take (k : Nat) (e : String) (t : List String) :
    (e :: t.take k).take k = (e :: t).take k := by
  cases k with
  | zero => rfl
  | succ n =>
    simp only [List.take_succ_cons, List.take_take]
    rw [Nat.min_eq_left (Nat.le_succ n)]

lemma cappedPush_state {k : Nat} (hk : 0 < k) (key e : String) (s : List String) :
    (CappedCollection.push key k e s).state = (e :: s).take k := by
  show ltrim 0 ((k : Int) - 1) (lpush e s) = (e :: s).take k
  exact redisSlice_take hk (e :: s)

lemma cappedPushAll_take {k : Nat} (hk : 0 < k) (key : String) (es s : List String) :
    CappedCollection.pushAll key k es (s.take k) = (es.reverse ++ s).take k := by
  induction es generalizing s with
  | nil => simp [CappedCollection.pushAll]
  | cons e tl ih =>
    show CappedCollection.pushAll key k tl
        ((CappedCollection.push key k e (s.take k)).state) = ((e :: tl).reverse ++ s).take k
    rw [cappedPush_state hk, take_cons_take, ih (e :: s)]
    simp

lemma cappedPushAll_nil {k : Nat} (hk : 0 < k) (key : String) (es : List String) :
    CappedCollection.pushAll key k es [] = es.reverse.take k := by
  have h := cappedPushAll_take hk key es []
  simpa using h

lemma queue_pushAll_eq (key : String) (es s : List String) :
    Queue.pushAll key es s = es.reverse ++ s := by
  induction es generalizing s with
  | nil => rfl
  | cons e tl ih =>
    show Queue.pushAll key tl (e :: s) = (e :: tl).reverse ++ s
    rw [ih]
    simp

lemma stack_pushAll_eq (key : String) (es s : List String) :
    Stack.pushAll key es s = es.reverse ++ s := by
  induction es generalizing s with
  | nil => rfl
  | cons e tl ih =>
    show Stack.pushAll key tl (e :: s) = (e :: tl).reverse ++ s
    rw [ih]
    simp

lemma queue_popN_reverse (key : String) (es : List String) :
    (Queue.popN key es.length es.reverse).1 = es.map some := by
  induction es with
  | nil => rfl
  | cons e tl ih =>
    simp only [List.length_cons, List.reverse_cons, Queue.popN, Queue.pop, rpop,
      List.getLast?_concat, List.dropLast_concat, List.map_cons]
    rw [ih]

lemma stack_popN_self (key : String) (l : List String) :
    (Stack.popN key l.length l).1 = l.map some := by
  induction l with
  | nil => rfl
  | cons e tl ih =>
    simp only [List.length_cons, Stack.popN, Stack.pop, lpop, List.head?_cons,
      List.tail_cons, List.map_cons]
    rw [ih]

lemma decodeStrList_map (l : List String) :
    decodeStrList (l.map JsonVal.str) = some l := by
  induction l with
  | nil => rfl
  | cons a tl ih => simp [decodeStrList, decodeStr, ih]

lemma capped_push_zero (key e : String) (s : List String) :
    (CappedCollection.push key 0 e s).state = e :: s := by
  show ltrim 0 (((0 : Nat) : Int) - 1) (lpush e s) = e :: s
  have h : ((0 : Nat) : Int) - 1 = -1 := by norm_num
  rw [h]
  exact redisSlice_full (e :: s)

lemma capped_pushAll_zero (key : String) (es s : List String) :
    CappedCollection.pushAll key 0 es s = es.reverse ++ s := by
  induction es generalizing s with
  | nil => rfl
  | cons e tl ih =>
    show CappedCollection.pushAll key 0 tl
        ((CappedCollection.push key 0 e s).state) = (e :: tl).reverse ++ s
    rw [capped_push_zero, ih]
    simp

/-! ### Claims -/

/-- Claim C3: for every sequence of n elements pushed via Queue.push on a
fresh key, n subsequent Queue.pop calls return those elements in the same
order they were pushed (FIFO). -/
theorem claim_C3 (key : String) (es : List String) :
    (Queue.popN key es.length (Queue.pushAll key es [])).1 = es.map some := by
  rw [queue_pushAll_eq, List.append_nil]
  exact queue_popN_reverse key es

/-- Claim C4: for every sequence of n elements pushed via Stack.push on a
fresh key, n subsequent Stack.pop calls return those elements in reverse
order of pushing (LIFO). -/
theorem claim_C4 (key : String) (es : List String) :
    (Stack.popN key es.length (Stack.pushAll key es [])).1 = es.reverse.map some := by
  rw [stack_pushAll_eq, List.append_nil]
  have h := stack_popN_self key es.reverse
  rwa [List.length_reverse] at h

/-- Claim C5: Deque preserves the fixed head/tail-to-primitive mapping
(pushback issues push-left, pushfront push-right, popfront pop-right,
popback pop-left), and pushing e via pushback on a fresh key then calling
popfront returns e. -/
theorem claim_C5 (key e : String) (s : List String) :
    (Deque.pushback key e s).state = lpush e s ∧
    (Deque.pushfront key e s).state = rpush e s ∧
    (Deque.popfront key s).value = (rpop s).1 ∧
    (Deque.popfront key s).state = (rpop s).2 ∧
    (Deque.popback key s).value = (lpop s).1 ∧
    (Deque.popback key s).state = (lpop s).2 ∧
    (Deque.popfront key (Deque.pushback key e []).state).value = some e :=
  ⟨rfl, rfl, rfl, rfl, rfl, rfl, rfl⟩

/-- Claim C6: for every handle of any of the four component types on a key
that has never been written (empty list), every pop operation returns the
empty sentinel (none), not an error. -/
theorem claim_C6 (key : String) :
    (Deque.popfront key []).value = none ∧
    (Deque.popback key []).value = none ∧
    (Queue.pop key []).value = none ∧
    (Stack.pop key []).value = none ∧
    (CappedCollection.pop key []).value = none :=
  ⟨rfl, rfl, rfl, rfl, rfl⟩

/-- Claim C8, counterexample: with capacity 0, a push does NOT trim every
element away; pushing one element on a fresh key leaves the list nonempty,
because ltrim(key, 0, 0-1) is ltrim(key, 0, -1), which keeps the whole
list. -/
theorem claim_C8_counterexample :
    (CappedCollection.push "k" 0 "a" []).state = ["a"] ∧
    (CappedCollection.push "k" 0 "a" []).state ≠ ([] : List String) :=
  ⟨capped_push_zero "k" "a" [], fun h => List.cons_ne_nil "a" []
    ((capped_push_zero "k" "a" []).symm.trans h)⟩

/-- Claim C8, amended: a CappedCollection with capacity 0 is degenerate but
non-crashing, yet in the opposite way the claim states: trim(key, 0, -1)
keeps the entire list, so each push prepends its element and trims nothing;
after m pushes on a fresh key the Remote List holds all m elements. -/
theorem claim_C8_amended (key e : String) (s es : List String) :
    (CappedCollection.push key 0 e s).state = e :: s ∧
    CappedCollection.pushAll key 0 es [] = es.reverse ∧
    (CappedCollection.pushAll key 0 es []).length = es.length := by
  refine ⟨capped_push_zero key e s, ?_, ?_⟩
  · rw [capped_pushAll_zero, List.append_nil]
  · rw [capped_pushAll_zero, List.append_nil, List.length_reverse]

/-- Claim C9, counterexample: CappedCollection.push emits no diagnostic
logging record at all (qr.py lines 130-135 contain no log.debug call), so
not every push operation logs the operation, element and key. -/
theorem claim_C9_counterexample :
    (CappedCollection.push "k" 3 "a" []).log = [] := rfl

/-- Claim C9, amended: every push and pop of the four component types emits
exactly one diagnostic record naming the operation, the element or popped
value, and the key - except CappedCollection.push, which emits no record. -/
theorem claim_C9_amended (key e : String) (k : Nat) (s : List String) :
    (Deque.pushback key e s).log = [LogRecord.pushed e key] ∧
    (Deque.pushfront key e s).log = [LogRecord.pushed e key] ∧
    (Deque.popfront key s).log = [LogRecord.popped (rpop s).1 key] ∧
    (Deque.popback key s).log = [LogRecord.popped (lpop s).1 key] ∧
    (Queue.push key e s).log = [LogRecord.pushed e key] ∧
    (Queue.pop key s).log = [LogRecord.popped (rpop s).1 key] ∧
    (Stack.push key e s).log = [LogRecord.pushed e key] ∧
    (Stack.pop key s).log = [LogRecord.popped (lpop s).1 key] ∧
    (CappedCollection.pop key s).log = [LogRecord.popped (rpop s).1 key] ∧
    (CappedCollection.push key k e s).log = [] :=
  ⟨rfl, rfl, rfl, rfl, rfl, rfl, rfl, rfl, rfl, rfl⟩

/-- Claim C1: for a CappedCollection of positive capacity k on a fresh key,
after pushing m elements one at a time, elements() is the snapshot of the
k (or m, when m is smaller) most-recently-pushed elements, most recent
first, its length is exactly min m k, and after every one of the m pushes
the Remote List holds at most k elements. -/
theorem claim_C1 (k : Nat) (hk : 0 < k) (key : String) (es : List String) :
    CappedCollection.elements (CappedCollection.pushAll key k es []) =
      some (es.reverse.take k) ∧
    (es.reverse.take k).length = min es.length k ∧
    (k ≤ es.length → es.reverse.take k = (es.drop (es.length - k)).reverse) ∧
    ∀ i, 0 < i → i ≤ es.length →
      (CappedCollection.pushAll key k (es.take i) []).length ≤ k := by
  refine ⟨?_, ?_, ?_, ?_⟩
  · rw [cappedPushAll_nil hk]
    show CappedCollection.elementsOfReply
      (some (redisSlice 0 (-1) (es.reverse.take k))) = _
    rw [redisSlice_full]
    rfl
  · rw [List.length_take, List.length_reverse, Nat.min_comm]
  · intro _
    exact List.take_reverse
  · intro i _ _
    rw [cappedPushAll_nil hk]
    exact List.length_take_le k _

/-- Witness for claim C1 at the spec's own example: capacity 3, pushes
a, b, c, d on a fresh key; elements() is d, c, b. -/
theorem claim_C1_witness :
    0 < 3 ∧
    (CappedCollection.elements (CappedCollection.pushAll "k" 3 ["a", "b", "c", "d"] []) =
        some ((["a", "b", "c", "d"] : List String).reverse.take 3) ∧
      ((["a", "b", "c", "d"] : List String).reverse.take 3).length =
        min (["a", "b", "c", "d"] : List String).length 3 ∧
      (3 ≤ (["a", "b", "c", "d"] : List String).length →
        (["a", "b", "c", "d"] : List String).reverse.take 3 =
          ((["a", "b", "c", "d"] : List String).drop
            ((["a", "b", "c", "d"] : List String).length - 3)).reverse) ∧
      ∀ i, 0 < i → i ≤ (["a", "b", "c", "d"] : List String).length →
        (CappedCollection.pushAll "k" 3
          ((["a", "b", "c", "d"] : List String).take i) []).length ≤ 3) ∧
    CappedCollection.elements (CappedCollection.pushAll "k" 3 ["a", "b", "c", "d"] []) =
      some ["d", "c", "b"] :=
  ⟨by decide, claim_C1 3 (by decide) "k" ["a", "b", "c", "d"], rfl⟩

/-- Claim C2: CappedCollection.push runs its lpush and ltrim as one atomic
pipeline batch (modelled as a single indivisible state transition), and
under any interleaving of concurrent CappedCollection.push calls against
the same key (any MergeOf trace of the clients' pending pushes, from any
initial list state), the remote list observed after any completed push
batch is never longer than a positive capacity k. -/
theorem claim_C2 (k : Nat) (hk : 0 < k) (key : String) (cs : List (List String))
    (tr : List String) (s : List String) (hm : MergeOf cs tr) (i : Nat)
    (hi : 0 < i) (hil : i ≤ tr.length) :
    (∀ e s0, (CappedCollection.push key k e s0).state =
      ltrim 0 ((k : Int) - 1) (lpush e s0)) ∧
    (CappedCollection.pushAll key k (tr.take i) s).length ≤ k := by
  refine ⟨fun e s0 => rfl, ?_⟩
  obtain ⟨p, e, hpe⟩ : ∃ L b, tr.take i = L ++ [b] := by
    rcases List.eq_nil_or_concat (tr.take i) with h | h
    · exfalso
      have hlen : (tr.take i).length = 0 := by rw [h]; rfl
      rw [List.length_take] at hlen
      omega
    · obtain ⟨L, b, hLb⟩ := h
      exact ⟨L, b, by rw [hLb, List.concat_eq_append]⟩
  have hsplit : CappedCollection.pushAll key k (tr.take i) s =
      (CappedCollection.push key k e (CappedCollection.pushAll key k p s)).state := by
    rw [hpe]
    simp [CappedCollection.pushAll, List.foldl_append]
  rw [hsplit, cappedPush_state hk]
  exact List.length_take_le k _

/-- Witness for claim C2: two clients, one pushing a then b, the other
pushing c, interleaved as a, c, b against capacity 2; after the second
batch the list length is at most 2. -/
theorem claim_C2_witness :
    MergeOf [["a", "b"], ["c"]] ["a", "c", "b"] ∧
    ((∀ e s0, (CappedCollection.push "k" 2 e s0).state =
      ltrim 0 ((2 : Int) - 1) (lpush e s0)) ∧
    (CappedCollection.pushAll "k" 2 ((["a", "c", "b"] : List String).take 2) []).length ≤ 2) := by
  have mp : MergeOf [["a", "b"], ["c"]] ["a", "c", "b"] :=
    MergeOf.step 0 "a" ["b"] rfl
      (MergeOf.step 1 "c" [] rfl
        (MergeOf.step 0 "b" [] rfl
          (MergeOf.done (by simp))))
  have h := claim_C2 2 (by decide) "k" [["a", "b"], ["c"]] ["a", "c", "b"] [] mp 2
    (by decide) (by decide)
  exact ⟨mp, ⟨fun e s0 => (h.1 e s0).trans (by norm_num), h.2⟩⟩

/-- Claim C7: for every handle of any of the four component types and every
store state, elements_as_json() is a JSON array of strings whose decoded
contents exactly equal what elements() returns on the same state. -/
theorem claim_C7 (s : List String) :
    decodeStringArray (Deque.elements_as_json s) = Deque.elements s ∧
    decodeStringArray (Queue.elements_as_json s) = some (Queue.elements s) ∧
    decodeStringArray (Stack.elements_as_json s) = Stack.elements s ∧
    decodeStringArray (CappedCollection.elements_as_json s) =
      CappedCollection.elements s := by
  refine ⟨?_, ?_, ?_, ?_⟩ <;>
    simp [Deque.elements_as_json, Deque.elements, Deque.elementsOfReply,
      Queue.elements_as_json, Queue.elements, Stack.elements_as_json,
      Stack.elements, Stack.elementsOfReply, CappedCollection.elements_as_json,
      CappedCollection.elements, CappedCollection.elementsOfReply, clientLrange,
      jsonDumps, jsonDumpsList, decodeStringArray, decodeStrList_map]

/-- Claim C10: on a nonexistent key (empty list), Queue.elements and
Queue.elements_as_json return the explicitly normalized empty sequence -
any falsy range-read reply, the absent-key sentinel included, is replaced
by an empty list - whereas Stack.elements and CappedCollection.elements
apply no normalization and return the range-read reply verbatim, sentinel
form included. -/
theorem claim_C10 :
    Queue.elementsOfReply none = [] ∧
    Queue.elementsOfReply (some []) = [] ∧
    Queue.elements [] = [] ∧
    Queue.elements_as_json [] = JsonVal.arr [] ∧
    (∀ r, Stack.elementsOfReply r = r) ∧
    (∀ r, CappedCollection.elementsOfReply r = r) ∧
    Stack.elementsOfReply none = none ∧
    Stack.elements [] = some [] ∧
    CappedCollection.elements [] = some [] :=
  ⟨rfl, rfl, rfl, rfl, fun _ => rfl, fun _ => rfl, rfl, rfl, rfl⟩
